import Mathlib

/-!
Shallow embedding of `src/loaders/src/glTF/2.0/Extensions/EXT_property_animation.ts`.

Float values are modelled as rationals: the loader only moves float values
around (it never computes with them), so any value type with decidable
equality is a faithful carrier.  Out-of-range reads of a typed array yield
the default value `0` (JS yields `undefined`; no claim depends on
out-of-range reads).
-/

/-- The name of this extension (`const NAME` in the source). -/
def NAME : String := "EXT_property_animation"

/-! Numeric animation-type constants of the external `babylonjs` `Animation`
class, used as plain numbers by the source. -/

def ANIMATIONTYPE_FLOAT : Nat := 0

def ANIMATIONTYPE_VECTOR3 : Nat := 1

def ANIMATIONTYPE_QUATERNION : Nat := 2

def ANIMATIONTYPE_COLOR3 : Nat := 4

def ANIMATIONTYPE_VECTOR2 : Nat := 5

def ANIMATIONTYPE_COLOR4 : Nat := 7

/-- A typed animation value as produced by `getNextOutputValue`:
`Vector2/Vector3/Quaternion/Color3.FromArray` or a bare scalar. -/
inductive AnimValue where
  | float (x : Rat)
  | vector2 (x y : Rat)
  | vector3 (x y z : Rat)
  | quaternion (x y z w : Rat)
  | color3 (r g b : Rat)
  deriving DecidableEq

/-- `AnimationKeyInterpolation` of the external animation-key model (only the
`STEP` member is used by the source). -/
inductive AnimationKeyInterpolation where
  | step
  deriving DecidableEq

/-- An `IAnimationKey` object literal as built by `getNextKey`: absent fields
are modelled as `none`. -/
structure AnimationKey where
  frame : Rat
  value : AnimValue
  inTangent : Option AnimValue := none
  outTangent : Option AnimValue := none
  interpolation : Option AnimationKeyInterpolation := none
  deriving DecidableEq

/-- `AnimationSamplerInterpolation` of `babylonjs-gltf2interface` (a string
enum in the source; its three members). -/
inductive AnimationSamplerInterpolation where
  | STEP
  | LINEAR
  | CUBICSPLINE
  deriving DecidableEq

/-- The value shapes for which `_loadAnimationChannelAsync` defines a
`getNextOutputValue` closure (the cases of its `switch (target.animationType)`). -/
inductive ValueType where
  | float
  | vector2
  | vector3
  | quaternion
  | color3
  | color4
  deriving DecidableEq

/-- Which `getNextOutputValue` closure the `switch (target.animationType)`
selects; `none` when no case matches (the closure variable stays undefined
and the build crashes on first use). -/
def ValueType.ofAnimationType (ty : Nat) : Option ValueType :=
  if ty = ANIMATIONTYPE_VECTOR2 then some .vector2
  else if ty = ANIMATIONTYPE_VECTOR3 then some .vector3
  else if ty = ANIMATIONTYPE_QUATERNION then some .quaternion
  else if ty = ANIMATIONTYPE_COLOR3 then some .color3
  else if ty = ANIMATIONTYPE_COLOR4 then some .color4
  else if ty = ANIMATIONTYPE_FLOAT then some .float
  else none

/-- How many flat floats one sample occupies (the cursor advance of each
`getNextOutputValue` closure). -/
def componentsPerSample : ValueType → Nat
  | .float => 1
  | .vector2 => 2
  | .vector3 => 3
  | .quaternion => 4
  | .color3 => 3
  | .color4 => 4

/-- How many samples one keyframe consumes: 3 for CUBICSPLINE
(in-tangent, value, out-tangent), otherwise 1. -/
def samplesPerKeyframe : AnimationSamplerInterpolation → Nat
  | .CUBICSPLINE => 3
  | _ => 1

/-- The primary `getNextOutputValue` closure: reads a typed value at the
cursor and returns the advanced cursor.  The COLOR4 case builds a
`Color3` from the first 3 floats of the sample but advances by 4. -/
def getNextOutputValue (output : List Rat) : ValueType → Nat → AnimValue × Nat
  | .vector2, off => (.vector2 (output.getD off 0) (output.getD (off + 1) 0), off + 2)
  | .vector3, off =>
      (.vector3 (output.getD off 0) (output.getD (off + 1) 0) (output.getD (off + 2) 0), off + 3)
  | .quaternion, off =>
      (.quaternion (output.getD off 0) (output.getD (off + 1) 0) (output.getD (off + 2) 0)
        (output.getD (off + 3) 0), off + 4)
  | .color3, off =>
      (.color3 (output.getD off 0) (output.getD (off + 1) 0) (output.getD (off + 2) 0), off + 3)
  | .color4, off =>
      (.color3 (output.getD off 0) (output.getD (off + 1) 0) (output.getD (off + 2) 0), off + 4)
  | .float, off => (.float (output.getD off 0), off + 1)

/-- The replacement `getNextOutputValue` installed for the alpha pass of a
COLOR4 channel: a bare scalar at the cursor, advancing by 4. -/
def getNextAlphaValue (output : List Rat) : Nat → AnimValue × Nat :=
  fun off => (.float (output.getD off 0), off + 4)

/-- `getNextKey`, parametrised by the current `getNextOutputValue` closure
`g` (the source reassigns that closure for the alpha pass).  Returns the
key and the cursor after building it. -/
def getNextKey (g : Nat → AnimValue × Nat) (interp : AnimationSamplerInterpolation)
    (input : List Rat) (frameIndex off : Nat) : AnimationKey × Nat :=
  match interp with
  | .STEP =>
      let (v, o) := g off
      ({ frame := input.getD frameIndex 0, value := v, interpolation := some .step }, o)
  | .LINEAR =>
      let (v, o) := g off
      ({ frame := input.getD frameIndex 0, value := v }, o)
  | .CUBICSPLINE =>
      let (t1, o1) := g off
      let (v, o2) := g o1
      let (t2, o3) := g o2
      ({ frame := input.getD frameIndex 0, inTangent := some t1, value := v,
         outTangent := some t2 }, o3)

/-- The key-building loop: build `n` keys starting at frame index `i` with
output cursor `off`; returns the keys and the final cursor. -/
def buildKeysAux (g : Nat → AnimValue × Nat) (interp : AnimationSamplerInterpolation)
    (input : List Rat) : Nat → Nat → Nat → List AnimationKey × Nat
  | 0, _, off => ([], off)
  | n + 1, i, off =>
      let (k, o) := getNextKey g interp input i off
      let (ks, o2) := buildKeysAux g interp input n (i + 1) o
      (k :: ks, o2)

/-- The full `for (frameIndex = 0; frameIndex < data.input.length; ...)`
loop, starting the output cursor at `startOff` (0 for the primary pass,
3 for the alpha pass). -/
def buildKeys (g : Nat → AnimValue × Nat) (interp : AnimationSamplerInterpolation)
    (input : List Rat) (startOff : Nat) : List AnimationKey × Nat :=
  buildKeysAux g interp input input.length 0 startOff

theorem getNextOutputValue_snd (output : List Rat) (vt : ValueType) (off : Nat) :
    (getNextOutputValue output vt off).2 = off + componentsPerSample vt := by
  cases vt <;> rfl

theorem getNextAlphaValue_snd (output : List Rat) (off : Nat) :
    (getNextAlphaValue output off).2 = off + 4 := rfl

theorem getNextKey_snd (g : Nat → AnimValue × Nat) (c : Nat)
    (hg : ∀ o, (g o).2 = o + c) (interp : AnimationSamplerInterpolation)
    (input : List Rat) (i off : Nat) :
    (getNextKey g interp input i off).2 = off + c * samplesPerKeyframe interp := by
  cases interp <;> simp [getNextKey, samplesPerKeyframe, hg] <;> ring

theorem buildKeysAux_length (g : Nat → AnimValue × Nat)
    (interp : AnimationSamplerInterpolation) (input : List Rat) :
    ∀ n i off, (buildKeysAux g interp input n i off).1.length = n := by
  intro n
  induction n with
  | zero => intro i off; rfl
  | succ m ih =>
      intro i off
      simp [buildKeysAux, ih]

theorem buildKeysAux_snd (g : Nat → AnimValue × Nat) (c : Nat)
    (hg : ∀ o, (g o).2 = o + c) (interp : AnimationSamplerInterpolation)
    (input : List Rat) :
    ∀ n i off, (buildKeysAux g interp input n i off).2 =
      off + n * (c * samplesPerKeyframe interp) := by
  intro n
  induction n with
  | zero => intro i off; simp [buildKeysAux]
  | succ m ih =>
      intro i off
      simp only [buildKeysAux]
      rw [ih, getNextKey_snd g c hg]
      ring

/-- A placeholder key used as the `List.getD` default in statements. -/
def dummyKey : AnimationKey :=
  { frame := 0, value := .float 0 }

theorem buildKeysAux_getD (g : Nat → AnimValue × Nat) (c : Nat)
    (hg : ∀ o, (g o).2 = o + c) (interp : AnimationSamplerInterpolation)
    (input : List Rat) :
    ∀ n i off j, j < n →
      (buildKeysAux g interp input n i off).1.getD j dummyKey =
        (getNextKey g interp input (i + j) (off + j * (c * samplesPerKeyframe interp))).1 := by
  intro n
  induction n with
  | zero => intro i off j hj; omega
  | succ m ih =>
      intro i off j hj
      cases j with
      | zero => simp [buildKeysAux]
      | succ jj =>
          have hjj : jj < m := by omega
          simp only [buildKeysAux, List.getD_cons_succ]
          rw [ih (i + 1) _ jj hjj, getNextKey_snd g c hg]
          ring_nf

theorem buildKeysAux_mem_interpolation (g : Nat → AnimValue × Nat)
    (interp : AnimationSamplerInterpolation) (input : List Rat) :
    ∀ n i off k, k ∈ (buildKeysAux g interp input n i off).1 →
      k.interpolation = if interp = .STEP then some .step else none := by
  intro n
  induction n with
  | zero => intro i off k hk; simp [buildKeysAux] at hk
  | succ m ih =>
      intro i off k hk
      simp only [buildKeysAux, List.mem_cons] at hk
      rcases hk with hk | hk
      · subst hk
        cases interp <;> simp [getNextKey]
      · exact ih (i + 1) _ k hk

/-! ## Sampler decoding (`_loadAnimationSamplerAsync`) -/

/-- The decoded data cached on a sampler (`IEXTPropertyAnimationSamplerData`). -/
structure IEXTPropertyAnimationSamplerData where
  input : List Rat
  interpolation : AnimationSamplerInterpolation
  output : List Rat
  deriving DecidableEq

/-- An `IAnimationSampler`: the raw `interpolation` string (absent field is
`none`), the two accessor indices, and the `_data` cache slot. -/
structure IAnimationSampler where
  interpolation : Option String
  input : Nat
  output : Nat
  _data : Option IEXTPropertyAnimationSamplerData := none
  deriving DecidableEq

/-- The validation `switch` of `_loadAnimationSamplerAsync`: which strings
name a recognised interpolation mode. -/
def parseInterpolationString (s : String) : Option AnimationSamplerInterpolation :=
  if s = "STEP" then some .STEP
  else if s = "LINEAR" then some .LINEAR
  else if s = "CUBICSPLINE" then some .CUBICSPLINE
  else none

/-- `sampler.interpolation || AnimationSamplerInterpolation.LINEAR`: in JS,
`undefined` and the empty string are both falsy, so both default to
`"LINEAR"`. -/
def effectiveInterpolationString : Option String → String
  | none => "LINEAR"
  | some v => if v = "" then "LINEAR" else v

/-- How `${sampler.interpolation}` prints inside the error template. -/
def printedInterpolationField : Option String → String
  | none => "undefined"
  | some v => v

/-- `_loadAnimationSamplerAsync`.  `accessors i` is the float array the
external loader produces for accessor `i`.  Returns the decode result, the
updated sampler (its `_data` cache possibly filled), and the number of
float-accessor reads performed by this call. -/
def _loadAnimationSamplerAsync (ctx : String) (accessors : Nat → List Rat)
    (sampler : IAnimationSampler) :
    Except String IEXTPropertyAnimationSamplerData × IAnimationSampler × Nat :=
  match sampler._data with
  | some d => (.ok d, sampler, 0)
  | none =>
      match parseInterpolationString (effectiveInterpolationString sampler.interpolation) with
      | none =>
          (.error (ctx ++ "/interpolation: Invalid value (" ++
            printedInterpolationField sampler.interpolation ++ ")"), sampler, 0)
      | some interp =>
          let d : IEXTPropertyAnimationSamplerData :=
            { input := accessors sampler.input, interpolation := interp,
              output := accessors sampler.output }
          (.ok d, { sampler with _data := some d }, 2)

/-! ## Channel assembly (`_loadAnimationChannelAsync`, after decode/resolve) -/

/-- The resolved target descriptor (`IEXTPropertyAnimationTarget`):
`object` is `none` when the walk bound no scene object. -/
structure IEXTPropertyAnimationTarget (Obj : Type) where
  targetPath : String
  animationType : Nat
  object : Option Obj
  deriving DecidableEq

/-- A `babylonjs` `Animation` as constructed by the source:
`new Animation(name, targetProperty, 1, animationType)` plus its keys. -/
structure BabylonAnimation where
  name : String
  targetProperty : String
  framePerSecond : Nat := 1
  animationType : Nat
  keys : List AnimationKey
  deriving DecidableEq

structure TargetedAnimation (Obj : Type) where
  animation : BabylonAnimation
  target : Obj
  deriving DecidableEq

structure AnimationGroup (Obj : Type) where
  name : String
  targetedAnimations : List (TargetedAnimation Obj)
  deriving DecidableEq

/-- `AnimationGroup.addTargetedAnimation`: append one targeted animation. -/
def AnimationGroup.addTargetedAnimation {Obj : Type} (g : AnimationGroup Obj)
    (a : BabylonAnimation) (t : Obj) : AnimationGroup Obj :=
  { g with targetedAnimations := g.targetedAnimations ++ [{ animation := a, target := t }] }

/-- The name template for a channel's track:
`` `${group.name}_${NAME}_channel${group.targetedAnimations.length}` ``. -/
def mkChannelName (groupName : String) (count : Nat) : String :=
  groupName ++ "_" ++ NAME ++ "_channel" ++ Nat.repr count

/-- The alpha track's name template: the channel template suffixed `_alpha`. -/
def mkAlphaChannelName (groupName : String) (count : Nat) : String :=
  mkChannelName groupName count ++ "_alpha"

/-- Everything `_loadAnimationChannelAsync` produces after the sampler is
decoded and the target resolved: the primary animation, the alpha
animation (COLOR4 only), and the updated group. -/
structure AssembleResult (Obj : Type) where
  primary : BabylonAnimation
  alpha : Option BabylonAnimation
  group : AnimationGroup Obj
  deriving DecidableEq

/-- The track-building tail of `_loadAnimationChannelAsync` (lines 82-193):
`none` models the crash when no `getNextOutputValue` case matches the
animation type. -/
def assembleChannel {Obj : Type} (data : IEXTPropertyAnimationSamplerData)
    (target : IEXTPropertyAnimationTarget Obj) (group : AnimationGroup Obj) :
    Option (AssembleResult Obj) :=
  match ValueType.ofAnimationType target.animationType with
  | none => none
  | some vt =>
      let keys := (buildKeys (getNextOutputValue data.output vt) data.interpolation
        data.input 0).1
      let animationName := mkChannelName group.name group.targetedAnimations.length
      let babylonAnimation : BabylonAnimation :=
        { name := animationName, targetProperty := target.targetPath,
          animationType := target.animationType, keys := keys }
      let group1 :=
        match target.object with
        | some obj => group.addTargetedAnimation babylonAnimation obj
        | none => group
      if target.animationType = ANIMATIONTYPE_COLOR4 then
        let alphaKeys := (buildKeys (getNextAlphaValue data.output) data.interpolation
          data.input 3).1
        let alphaAnimationName :=
          mkAlphaChannelName group1.name group1.targetedAnimations.length
        let alphaBabylonAnimation : BabylonAnimation :=
          { name := alphaAnimationName, targetProperty := "alpha",
            animationType := ANIMATIONTYPE_FLOAT, keys := alphaKeys }
        let group2 :=
          match target.object with
          | some obj => group1.addTargetedAnimation alphaBabylonAnimation obj
          | none => group1
        some { primary := babylonAnimation, alpha := some alphaBabylonAnimation,
               group := group2 }
      else
        some { primary := babylonAnimation, alpha := none, group := group1 }

/-! ## Path resolution (`pathProperties`, `_getAnimationObject`) -/

/-- A node of the `pathProperties` registry tree, as a tagged variant:
the `_isIndexed`, `_getTarget`, `_targetPath` and `_animationType` marker
properties plus the named children.  A lookup function receives the raw
segment consumed as the index (`none` when the walk ran past the last
segment, where JS passes `undefined`) and yields at most one scene
object. -/
inductive PathNode (Obj : Type) where
  | mk (indexed : Bool)
       (getTarget : Option (Option String → Option Obj))
       (targetPath : Option String)
       (animationType : Option Nat)
       (children : List (String × PathNode Obj))

def PathNode.indexed {Obj : Type} : PathNode Obj → Bool
  | .mk b _ _ _ _ => b

def PathNode.getTarget {Obj : Type} : PathNode Obj → Option (Option String → Option Obj)
  | .mk _ g _ _ _ => g

def PathNode.targetPath {Obj : Type} : PathNode Obj → Option String
  | .mk _ _ t _ _ => t

def PathNode.animationType {Obj : Type} : PathNode Obj → Option Nat
  | .mk _ _ _ a _ => a

def PathNode.children {Obj : Type} : PathNode Obj → List (String × PathNode Obj)
  | .mk _ _ _ _ c => c

/-- `pathPartNode[pathPart]` restricted to the named children of a node. -/
def findChild {Obj : Type} : List (String × PathNode Obj) → String → Option (PathNode Obj)
  | [], _ => none
  | (k, n) :: rest, key => if k = key then some n else findChild rest key

/-- `` `${context}: Invalid ${NAME} target path (${target})` `` -/
def invalidTargetPathMsg (ctx target : String) : String :=
  ctx ++ ": Invalid " ++ NAME ++ " target path (" ++ target ++ ")"

/-- `targetPaths.push(pathPartNode._targetPath)` when the marker is present. -/
def pushFragment {Obj : Type} (child : PathNode Obj) (targetPaths : List String) :
    List String :=
  match child.targetPath with
  | some f => targetPaths ++ [f]
  | none => targetPaths

/-- `result.animationType = pathPartNode._animationType` when the marker is
present (last writer wins). -/
def updateAnimationType {Obj : Type} (child : PathNode Obj) (ty : Nat) : Nat :=
  match child.animationType with
  | some t => t
  | none => ty

/-- `targetPaths.join('.')` (JS `Array.prototype.join` with `'.'`). -/
def joinDot : List String → String
  | [] => ""
  | x :: xs => xs.foldl (fun a b => a ++ "." ++ b) x

/-- The walk loop of `_getAnimationObject`.  State: remaining split
segments, accumulated `targetPaths` fragments, current `animationType`,
current `object`, and the log of index arguments passed to `_getTarget`
lookups.  On success returns the descriptor and the log.  When an indexed
node is entered, the next raw segment is consumed as the index
(`pathParts[++pathIndex]`, which is `undefined` — here `none` — past the
last segment); when that consumption exhausts the segments, the loop ends
after this iteration's marker handling. -/
def _getAnimationObjectAux {Obj : Type} (ctx target : String) :
    PathNode Obj → List String → List String → Nat → Option Obj → List (Option String) →
    Except String (IEXTPropertyAnimationTarget Obj × List (Option String))
  | _, [], targetPaths, ty, obj, log =>
      .ok ({ targetPath := joinDot targetPaths, animationType := ty,
             object := obj }, log)
  | node, p :: rest, targetPaths, ty, obj, log =>
      if p = "" then
        _getAnimationObjectAux ctx target node rest targetPaths ty obj log
      else
        match findChild node.children p with
        | none => .error (invalidTargetPathMsg ctx target)
        | some child =>
            if child.indexed then
              match child.getTarget with
              | some g =>
                  match rest with
                  | [] =>
                      match g none with
                      | none => .error (invalidTargetPathMsg ctx target)
                      | some o =>
                          .ok ({ targetPath := joinDot (pushFragment child targetPaths),
                                 animationType := updateAnimationType child ty,
                                 object := some o }, log ++ [none])
                  | r :: rs =>
                      match g (some r) with
                      | none => .error (invalidTargetPathMsg ctx target)
                      | some o =>
                          _getAnimationObjectAux ctx target child rs
                            (pushFragment child targetPaths) (updateAnimationType child ty)
                            (some o) (log ++ [some r])
              | none =>
                  match rest with
                  | [] =>
                      .ok ({ targetPath := joinDot (pushFragment child targetPaths),
                             animationType := updateAnimationType child ty,
                             object := obj }, log)
                  | _ :: rs =>
                      _getAnimationObjectAux ctx target child rs
                        (pushFragment child targetPaths) (updateAnimationType child ty)
                        obj log
            else
              _getAnimationObjectAux ctx target child rest
                (pushFragment child targetPaths) (updateAnimationType child ty)
                obj log

/-- JS `target.split('/')`: cut the character list at every `'/'`;
`"".split('/')` is `[""]`, and leading/trailing/doubled separators yield
empty segments. -/
def splitSlashAux : List Char → List Char → List String
  | [], acc => [String.mk acc.reverse]
  | c :: cs, acc =>
      if c = '/' then String.mk acc.reverse :: splitSlashAux cs []
      else splitSlashAux cs (c :: acc)

/-- `target.split('/')` on a string. -/
def splitSlash (s : String) : List String := splitSlashAux s.data []

/-- `_getAnimationObject`: split the target on `/` and walk the registry,
starting from the empty accumulated state. -/
def _getAnimationObject {Obj : Type} (ctx : String) (root : PathNode Obj)
    (target : String) :
    Except String (IEXTPropertyAnimationTarget Obj × List (Option String)) :=
  _getAnimationObjectAux ctx target root (splitSlash target) [] 0 none []

/-- The `pbrMetallicRoughness` subtree of the `pathProperties` registry. -/
def pbrMetallicRoughnessNode {Obj : Type} : PathNode Obj :=
  .mk false none none none
    [("baseColorFactor",
      .mk false none (some "albedoColor") (some ANIMATIONTYPE_COLOR4) []),
     ("metallicFactor",
      .mk false none (some "metallic") (some ANIMATIONTYPE_FLOAT) []),
     ("roughnessFactor",
      .mk false none (some "roughness") (some ANIMATIONTYPE_FLOAT) []),
     ("baseColorTexture", .mk false none none none
        [("extensions", .mk false none none none
            [("KHR_texture_transform", .mk false none none none
                [("offset",
                  .mk false none (some "albedoTexture.uvOffset")
                    (some ANIMATIONTYPE_VECTOR2) []),
                 ("scale",
                  .mk false none (some "albedoTexture.uvScale")
                    (some ANIMATIONTYPE_VECTOR2) [])])])])]

/-- The `pathProperties` registry literal, parametrised by the two external
scene-graph lookup functions bound to its indexed nodes (`lights._getTarget`
and `materials._getTarget`).  The `lights.color` and `lights.intensity`
leaves declare `_typedKeyframeTrack` (which the walker never reads), not
`_animationType`, so their animation-type marker is absent here. -/
def pathProperties {Obj : Type}
    (lightsGetTarget materialsGetTarget : Option String → Option Obj) : PathNode Obj :=
  .mk false none none none
    [("extensions", .mk false none none none
        [("KHR_lights", .mk false none none none
            [("lights", .mk true (some lightsGetTarget) none none
                [("color", .mk false none (some "diffuse") none []),
                 ("intensity", .mk false none (some "intensity") none [])])])]),
     ("materials", .mk true (some materialsGetTarget) none none
        [("pbrMetallicRoughness", pbrMetallicRoughnessNode),
         ("emissiveFactor",
          .mk false none (some "emissive") (some ANIMATIONTYPE_COLOR3) [])])]

/-- The two failure situations of the walk, written from the spec's
resolution bullets: a nonempty segment naming no child, or an indexed
node's declared lookup yielding no object for the consumed index
segment. -/
def walkFails {Obj : Type} : PathNode Obj → List String → Bool
  | _, [] => false
  | node, p :: rest =>
      if p = "" then walkFails node rest
      else
        match findChild node.children p with
        | none => true
        | some child =>
            if child.indexed then
              match child.getTarget with
              | some g =>
                  match rest with
                  | [] => (g none).isNone
                  | r :: rs =>
                      match g (some r) with
                      | none => true
                      | some _ => walkFails child rs
              | none =>
                  match rest with
                  | [] => false
                  | _ :: rs => walkFails child rs
            else walkFails child rest

mutual

/-- No node of this registry subtree carries the indexed marker. -/
def noIndexed {Obj : Type} : PathNode Obj → Bool
  | .mk b _ _ _ cs => !b && noIndexedChildren cs

def noIndexedChildren {Obj : Type} : List (String × PathNode Obj) → Bool
  | [] => true
  | (_, n) :: rest => noIndexed n && noIndexedChildren rest

end

/-! ## Unfolding lemmas for `getNextKey` -/

theorem getNextKey_STEP (g : Nat → AnimValue × Nat) (input : List Rat) (i off : Nat) :
    getNextKey g .STEP input i off =
      ({ frame := input.getD i 0, value := (g off).1, interpolation := some .step },
       (g off).2) := by
  rcases h : g off with ⟨v, o⟩
  simp [getNextKey, h]

theorem getNextKey_LINEAR (g : Nat → AnimValue × Nat) (input : List Rat) (i off : Nat) :
    getNextKey g .LINEAR input i off =
      ({ frame := input.getD i 0, value := (g off).1 }, (g off).2) := by
  rcases h : g off with ⟨v, o⟩
  simp [getNextKey, h]

theorem getNextKey_CUBICSPLINE (g : Nat → AnimValue × Nat) (input : List Rat) (i off : Nat) :
    getNextKey g .CUBICSPLINE input i off =
      ({ frame := input.getD i 0, inTangent := some (g off).1,
         value := (g ((g off).2)).1, outTangent := some (g ((g ((g off).2)).2)).1 },
       (g ((g ((g off).2)).2)).2) := by
  rcases h1 : g off with ⟨t1, o1⟩
  rcases h2 : g o1 with ⟨v, o2⟩
  rcases h3 : g o2 with ⟨t2, o3⟩
  simp [getNextKey, h1, h2, h3]

/-! ## Shared concrete fixtures for witnesses and counterexamples -/

/-- A materials lookup over a one-object scene: index `"0"` resolves. -/
def unitMaterialsLookup : Option String → Option Unit :=
  fun i => if i = some "0" then some () else none

/-- A lights lookup binding no live light instance. -/
def unitLightsLookup : Option String → Option Unit :=
  fun _ => none

/-- The registry instantiated over the one-object scene. -/
def unitRegistry : PathNode Unit := pathProperties unitLightsLookup unitMaterialsLookup

/-- Accessor contents: accessor 0 is the input `[0,1,2]`, every other
accessor is the output `[1,2,3]`. -/
def stepAccessors : Nat → List Rat := fun i => if i = 0 then [0, 1, 2] else [1, 2, 3]

/-- A STEP sampler over those accessors, nothing cached yet. -/
def stepSampler : IAnimationSampler :=
  { interpolation := some "STEP", input := 0, output := 1 }

/-- C9: decoding a STEP sampler with input `[0,1,2]` and output `[1,2,3]`
and building its scalar keyframes yields exactly the three keyframes
`{frame 0, value 1}`, `{frame 1, value 2}`, `{frame 2, value 3}` in that
order, with no `inTangent` or `outTangent` field on any keyframe (each key
carries only the STEP per-key marker besides frame and value). -/
theorem c9_step_scalar_roundtrip :
    (_loadAnimationSamplerAsync "/animations/0/samplers/0" stepAccessors stepSampler).1 =
      .ok { input := [0, 1, 2], interpolation := .STEP, output := [1, 2, 3] } ∧
    (buildKeys (getNextOutputValue [1, 2, 3] .float) .STEP [0, 1, 2] 0).1 =
      [{ frame := 0, value := .float 1, inTangent := none, outTangent := none,
         interpolation := some .step },
       { frame := 1, value := .float 2, inTangent := none, outTangent := none,
         interpolation := some .step },
       { frame := 2, value := .float 3, inTangent := none, outTangent := none,
         interpolation := some .step }] := by
  exact ⟨rfl, rfl⟩

/-- C10: every keyframe a channel build produces under STEP interpolation
carries the per-key STEP marker, and keyframes produced under LINEAR or
CUBICSPLINE interpolation carry no interpolation field, on the primary
track and on the alpha track alike. -/
theorem c10_step_marker (Obj : Type) (data : IEXTPropertyAnimationSamplerData)
    (target : IEXTPropertyAnimationTarget Obj) (group : AnimationGroup Obj)
    (res : AssembleResult Obj) (h : assembleChannel data target group = some res) :
    (∀ k ∈ res.primary.keys,
      k.interpolation = if data.interpolation = .STEP then some .step else none) ∧
    (∀ a, res.alpha = some a → ∀ k ∈ a.keys,
      k.interpolation = if data.interpolation = .STEP then some .step else none) := by
  unfold assembleChannel at h
  cases hty : ValueType.ofAnimationType target.animationType with
  | none => rw [hty] at h; exact absurd h (by simp)
  | some vt =>
      rw [hty] at h
      simp only at h
      split at h
      · cases h
        refine ⟨fun k hk => ?_, fun a ha k hk => ?_⟩
        · exact buildKeysAux_mem_interpolation _ _ _ _ _ _ k hk
        · cases ha
          exact buildKeysAux_mem_interpolation _ _ _ _ _ _ k hk
      · cases h
        refine ⟨fun k hk => ?_, fun a ha k hk => ?_⟩
        · exact buildKeysAux_mem_interpolation _ _ _ _ _ _ k hk
        · cases ha

/-- A STEP-interpolated decoded sampler with two scalar keyframes. -/
def stepData : IEXTPropertyAnimationSamplerData :=
  { input := [0, 1], interpolation := .STEP, output := [1, 2] }

/-- A resolved scalar target with no bound scene object. -/
def floatTarget : IEXTPropertyAnimationTarget Unit :=
  { targetPath := "metallic", animationType := ANIMATIONTYPE_FLOAT, object := none }

/-- An empty animation group named `g`. -/
def emptyGroup : AnimationGroup Unit := { name := "g", targetedAnimations := [] }

/-- The assemble result for the STEP scalar fixture. -/
def stepAssembleRes : AssembleResult Unit :=
  (assembleChannel stepData floatTarget emptyGroup).getD
    ⟨{ name := "", targetProperty := "", animationType := 0, keys := [] }, none, emptyGroup⟩

theorem c10_step_marker_witness :
    assembleChannel stepData floatTarget emptyGroup = some stepAssembleRes ∧
    ∀ k ∈ stepAssembleRes.primary.keys,
      k.interpolation = if stepData.interpolation = .STEP then some .step else none :=
  ⟨rfl, (c10_step_marker Unit stepData floatTarget emptyGroup stepAssembleRes rfl).1⟩

/-- C4: decode is idempotent and single-flight per sampler: a second
`_loadAnimationSamplerAsync` call on the sampler state left by a first
call returns exactly the first call's result and state while performing
zero further float-accessor reads, and any single call reads each of the
sampler's two accessors at most once. -/
theorem c4_decode_single_flight (ctx : String) (accessors : Nat → List Rat)
    (s : IAnimationSampler) :
    _loadAnimationSamplerAsync ctx accessors
        (_loadAnimationSamplerAsync ctx accessors s).2.1 =
      ((_loadAnimationSamplerAsync ctx accessors s).1,
       (_loadAnimationSamplerAsync ctx accessors s).2.1, 0) ∧
    (_loadAnimationSamplerAsync ctx accessors s).2.2 ≤ 2 := by
  unfold _loadAnimationSamplerAsync
  cases hd : s._data with
  | some d => simp [hd]
  | none =>
      cases hp : parseInterpolationString (effectiveInterpolationString s.interpolation) with
      | none => simp [hd, hp]
      | some i => simp [hd, hp]

/-- C5: keyframe construction consumes the flat output array with the
componentsPerSample table float 1, 2-vector 2, 3-vector 3, quaternion 4,
3-color 3, 4-color 4 and samplesPerKeyframe 3 under CUBICSPLINE and 1
otherwise; each CUBICSPLINE keyframe reads in-tangent, then value, then
out-tangent, in that order; and over a full build of inputLength keyframes
the cursor advances by exactly componentsPerSample * samplesPerKeyframe *
inputLength floats, advancing steadily (never reset mid-track). -/
theorem c5_cursor_contract (vt : ValueType) (interp : AnimationSamplerInterpolation)
    (input output : List Rat) (startOff : Nat) :
    (∀ off, (getNextOutputValue output vt off).2 = off + componentsPerSample vt) ∧
    samplesPerKeyframe interp = (if interp = .CUBICSPLINE then 3 else 1) ∧
    (buildKeys (getNextOutputValue output vt) interp input startOff).2 =
      startOff + componentsPerSample vt * samplesPerKeyframe interp * input.length ∧
    (∀ n, (buildKeysAux (getNextOutputValue output vt) interp input n 0 startOff).2 =
      startOff + n * (componentsPerSample vt * samplesPerKeyframe interp)) ∧
    (∀ j, j < input.length →
      (buildKeys (getNextOutputValue output vt) .CUBICSPLINE input startOff).1.getD j
          dummyKey =
        { frame := input.getD j 0,
          inTangent :=
            some (getNextOutputValue output vt
              (startOff + j * (componentsPerSample vt * 3))).1,
          value :=
            (getNextOutputValue output vt
              (startOff + j * (componentsPerSample vt * 3) + componentsPerSample vt)).1,
          outTangent :=
            some (getNextOutputValue output vt
              (startOff + j * (componentsPerSample vt * 3) + componentsPerSample vt +
                componentsPerSample vt)).1 }) := by
  refine ⟨getNextOutputValue_snd output vt, by cases interp <;> rfl, ?_, ?_, ?_⟩
  · rw [buildKeys, buildKeysAux_snd _ _ (getNextOutputValue_snd output vt)]
    ring
  · intro n
    exact buildKeysAux_snd _ _ (getNextOutputValue_snd output vt) interp input n 0 startOff
  · intro j hj
    rw [buildKeys, buildKeysAux_getD _ _ (getNextOutputValue_snd output vt) _ _ _ _ _ j hj,
      getNextKey_CUBICSPLINE]
    simp only [getNextOutputValue_snd, Nat.zero_add, samplesPerKeyframe]

theorem c5_cursor_contract_witness :
    (buildKeys (getNextOutputValue [1, 2, 3, 4, 5, 6] .float) .CUBICSPLINE [0, 1] 0).1.getD 0
        dummyKey =
      { frame := 0, inTangent := some (.float 1), value := .float 2,
        outTangent := some (.float 3) } :=
  (c5_cursor_contract .float .CUBICSPLINE [0, 1] [1, 2, 3, 4, 5, 6] 0).2.2.2.2 0 (by decide)

/-- A sampler whose `interpolation` field holds the empty string. -/
def emptyInterpSampler : IAnimationSampler :=
  { interpolation := some "", input := 0, output := 1 }

/-- C3 counterexample: the empty string is present (not absent) and is not
one of STEP, LINEAR, CUBICSPLINE, yet decoding does not fail: because the
source defaults with `sampler.interpolation || LINEAR` and the empty string
is falsy in JS, decode succeeds and treats the sampler as LINEAR. -/
theorem c3_empty_interpolation_not_rejected :
    emptyInterpSampler.interpolation = some "" ∧
    ¬("" = "STEP" ∨ "" = "LINEAR" ∨ "" = "CUBICSPLINE") ∧
    (_loadAnimationSamplerAsync "/animations/0/samplers/0" stepAccessors
        emptyInterpSampler).1 =
      .ok { input := [0, 1, 2], interpolation := .LINEAR, output := [1, 2, 3] } :=
  ⟨rfl, by decide, rfl⟩

/-- C3 amended: with no decoded data cached, decoding uses LINEAR when the
sampler's interpolation field is absent or the empty string (both falsy in
JS), succeeds when the mode is STEP, LINEAR or CUBICSPLINE, and for any
other value fails with an error naming the sampler's path and the
offending interpolation value, leaving the sampler unchanged and
performing zero accessor-buffer reads (for every accessor assignment). -/
theorem c3_interpolation_validation (ctx : String) (accessors : Nat → List Rat)
    (s : IAnimationSampler) (hd : s._data = none) :
    ((s.interpolation = none ∨ s.interpolation = some "") →
      (_loadAnimationSamplerAsync ctx accessors s).1 =
        .ok { input := accessors s.input, interpolation := .LINEAR,
              output := accessors s.output }) ∧
    (∀ v, s.interpolation = some v → (v = "STEP" ∨ v = "LINEAR" ∨ v = "CUBICSPLINE") →
      ∃ i, parseInterpolationString v = some i ∧
        (_loadAnimationSamplerAsync ctx accessors s).1 =
          .ok { input := accessors s.input, interpolation := i,
                output := accessors s.output }) ∧
    (∀ v, s.interpolation = some v → v ≠ "" →
      ¬(v = "STEP" ∨ v = "LINEAR" ∨ v = "CUBICSPLINE") →
      _loadAnimationSamplerAsync ctx accessors s =
        (.error (ctx ++ "/interpolation: Invalid value (" ++ v ++ ")"), s, 0)) := by
  refine ⟨?_, ?_, ?_⟩
  · rintro (hv | hv) <;>
      simp [_loadAnimationSamplerAsync, hd, hv, effectiveInterpolationString,
        parseInterpolationString]
  · rintro v hv (rfl | rfl | rfl) <;>
      exact ⟨_, rfl, by
        simp [_loadAnimationSamplerAsync, hd, hv, effectiveInterpolationString,
          parseInterpolationString]⟩
  · intro v hv hne hbad
    have h1 : ¬v = "STEP" := fun h => hbad (Or.inl h)
    have h2 : ¬v = "LINEAR" := fun h => hbad (Or.inr (Or.inl h))
    have h3 : ¬v = "CUBICSPLINE" := fun h => hbad (Or.inr (Or.inr h))
    simp [_loadAnimationSamplerAsync, hd, hv, effectiveInterpolationString, hne,
      parseInterpolationString, h1, h2, h3, printedInterpolationField]

/-- A sampler carrying an unrecognised interpolation value. -/
def badInterpSampler : IAnimationSampler :=
  { interpolation := some "SMOOTH", input := 0, output := 1 }

theorem c3_interpolation_validation_witness :
    _loadAnimationSamplerAsync "/animations/0/samplers/0" stepAccessors badInterpSampler =
      (.error "/animations/0/samplers/0/interpolation: Invalid value (SMOOTH)",
       badInterpSampler, 0) :=
  (c3_interpolation_validation "/animations/0/samplers/0" stepAccessors badInterpSampler
    rfl).2.2 "SMOOTH" rfl (by decide) (by decide)

/-- C1: for a channel whose resolved value type is 4-component color, with
decoded input of length N (output 4N) under STEP or LINEAR interpolation,
assembly builds a primary track of N keyframes whose values are 3-component
colors from the first 3 floats of each 4-float sample, and an alpha-only
scalar track of N keyframes reading the 4th float of each sample (cursor
starting at 3, advancing by 4), frame-aligned with the primary track, with
target sub-property the fixed literal `alpha`, attached to the same
resolved object when one is present. -/
theorem c1_color4_alpha_split (Obj : Type) (data : IEXTPropertyAnimationSamplerData)
    (target : IEXTPropertyAnimationTarget Obj) (group : AnimationGroup Obj)
    (res : AssembleResult Obj) (N : Nat)
    (hty : target.animationType = ANIMATIONTYPE_COLOR4)
    (hinterp : data.interpolation = .STEP ∨ data.interpolation = .LINEAR)
    (hN : data.input.length = N) (hout : data.output.length = 4 * N)
    (h : assembleChannel data target group = some res) :
    res.primary.keys.length = N ∧
    (∀ j, j < N → (res.primary.keys.getD j dummyKey).value =
      .color3 (data.output.getD (4 * j) 0) (data.output.getD (4 * j + 1) 0)
        (data.output.getD (4 * j + 2) 0)) ∧
    ∃ a, res.alpha = some a ∧
      a.keys.length = N ∧
      a.targetProperty = "alpha" ∧
      a.animationType = ANIMATIONTYPE_FLOAT ∧
      (∀ j, j < N → (a.keys.getD j dummyKey).value =
        .float (data.output.getD (4 * j + 3) 0)) ∧
      (∀ j, j < N → (a.keys.getD j dummyKey).frame =
        (res.primary.keys.getD j dummyKey).frame) ∧
      (∀ obj, target.object = some obj →
        res.group.targetedAnimations = group.targetedAnimations ++
          [{ animation := res.primary, target := obj },
           { animation := a, target := obj }]) := by
  have hvt : ValueType.ofAnimationType target.animationType = some .color4 := by
    rw [hty]; rfl
  unfold assembleChannel at h
  rw [hvt] at h
  simp only [hty, if_pos rfl] at h
  cases h
  have hg : ∀ o, (getNextOutputValue data.output .color4 o).2 = o + 4 :=
    fun o => getNextOutputValue_snd data.output .color4 o
  have hga : ∀ o, (getNextAlphaValue data.output o).2 = o + 4 := fun o => rfl
  have hjlen : ∀ j, j < N → j < data.input.length := by omega
  refine ⟨?_, ?_, ?_⟩
  · simpa [buildKeys, buildKeysAux_length] using hN
  · intro j hj
    show ((buildKeys (getNextOutputValue data.output .color4) data.interpolation
      data.input 0).1.getD j dummyKey).value = _
    rw [buildKeys, buildKeysAux_getD _ _ hg _ _ _ _ _ j (hjlen j hj)]
    rcases hinterp with hi | hi <;> rw [hi]
    · rw [getNextKey_STEP]
      simp only [samplesPerKeyframe]
      have e : 0 + j * (4 * 1) = 4 * j := by ring
      rw [e]
      rfl
    · rw [getNextKey_LINEAR]
      simp only [samplesPerKeyframe]
      have e : 0 + j * (4 * 1) = 4 * j := by ring
      rw [e]
      rfl
  · refine ⟨_, rfl, ?_, rfl, rfl, ?_, ?_, ?_⟩
    · simpa [buildKeys, buildKeysAux_length] using hN
    · intro j hj
      show ((buildKeys (getNextAlphaValue data.output) data.interpolation
        data.input 3).1.getD j dummyKey).value = _
      rw [buildKeys, buildKeysAux_getD _ _ hga _ _ _ _ _ j (hjlen j hj)]
      rcases hinterp with hi | hi <;> rw [hi]
      · rw [getNextKey_STEP]
        simp only [samplesPerKeyframe]
        have e : 3 + j * (4 * 1) = 4 * j + 3 := by ring
        rw [e]
        rfl
      · rw [getNextKey_LINEAR]
        simp only [samplesPerKeyframe]
        have e : 3 + j * (4 * 1) = 4 * j + 3 := by ring
        rw [e]
        rfl
    · intro j hj
      show ((buildKeys (getNextAlphaValue data.output) data.interpolation
          data.input 3).1.getD j dummyKey).frame =
        ((buildKeys (getNextOutputValue data.output .color4) data.interpolation
          data.input 0).1.getD j dummyKey).frame
      rw [buildKeys, buildKeys, buildKeysAux_getD _ _ hga _ _ _ _ _ j (hjlen j hj),
        buildKeysAux_getD _ _ hg _ _ _ _ _ j (hjlen j hj)]
      rcases hinterp with hi | hi <;> rw [hi]
      · rw [getNextKey_STEP, getNextKey_STEP]
      · rw [getNextKey_LINEAR, getNextKey_LINEAR]
    · intro obj hobj
      simp only [hobj, AnimationGroup.addTargetedAnimation, List.append_assoc]
      rfl

/-- A LINEAR 4-color decoded sampler: 2 keyframes, 8 output floats. -/
def color4Data : IEXTPropertyAnimationSamplerData :=
  { input := [0, 1], interpolation := .LINEAR, output := [1, 2, 3, 4, 5, 6, 7, 8] }

/-- The resolved `baseColorFactor` target with a bound scene object. -/
def color4Target : IEXTPropertyAnimationTarget Unit :=
  { targetPath := "albedoColor", animationType := ANIMATIONTYPE_COLOR4, object := some () }

/-- The assemble result for the 4-color fixture. -/
def color4AssembleRes : AssembleResult Unit :=
  (assembleChannel color4Data color4Target emptyGroup).getD
    ⟨{ name := "", targetProperty := "", animationType := 0, keys := [] }, none, emptyGroup⟩

theorem c1_color4_alpha_split_witness :
    assembleChannel color4Data color4Target emptyGroup = some color4AssembleRes ∧
    color4AssembleRes.primary.keys.length = 2 ∧
    ∃ a, color4AssembleRes.alpha = some a ∧ a.targetProperty = "alpha" ∧
      (∀ j, j < 2 → (a.keys.getD j dummyKey).value =
        .float (color4Data.output.getD (4 * j + 3) 0)) := by
  obtain ⟨h1, h2, a, ha, halen, haprop, haty, haval, haframe, hagroup⟩ :=
    c1_color4_alpha_split Unit color4Data color4Target emptyGroup color4AssembleRes 2
      rfl (Or.inr rfl) rfl rfl rfl
  exact ⟨rfl, h1, a, ha, haprop, haval⟩

/-- The walk loop errors exactly in the spec's two failure situations, and
every error it raises is the invalid-target-path message naming the
offending target string (fuel-indexed induction over the segment list). -/
theorem getAnimationObjectAux_error_charact {Obj : Type} (ctx target : String) :
    ∀ fuel (parts : List String), parts.length ≤ fuel →
      ∀ (node : PathNode Obj) targetPaths ty obj log,
        ((∃ e, _getAnimationObjectAux ctx target node parts targetPaths ty obj log =
            .error e) ↔ walkFails node parts = true) ∧
        (∀ e, _getAnimationObjectAux ctx target node parts targetPaths ty obj log =
            .error e → e = invalidTargetPathMsg ctx target) := by
  intro fuel
  induction fuel with
  | zero =>
      intro parts hp node targetPaths ty obj log
      have hnil : parts = [] := List.length_eq_zero.mp (Nat.le_zero.mp hp)
      subst hnil
      simp [_getAnimationObjectAux, walkFails]
  | succ f ih =>
      intro parts hp node targetPaths ty obj log
      cases parts with
      | nil => simp [_getAnimationObjectAux, walkFails]
      | cons p rest =>
          have hr : rest.length ≤ f := by
            simp only [List.length_cons] at hp
            omega
          rw [_getAnimationObjectAux, walkFails]
          by_cases hps : p = ""
          · simp only [if_pos hps]
            exact ih rest hr node targetPaths ty obj log
          · simp only [if_neg hps]
            cases hfc : findChild node.children p with
            | none =>
                exact ⟨⟨fun _ => by trivial, fun _ => ⟨_, rfl⟩⟩,
                  fun e he => (Except.error.inj he).symm⟩
            | some child =>
                by_cases hci : child.indexed = true
                · simp only [if_pos hci]
                  cases hgt : child.getTarget with
                  | none =>
                      simp only [hgt]
                      cases rest with
                      | nil => simp
                      | cons r rs =>
                          have hrs : rs.length ≤ f := by
                            simp only [List.length_cons] at hr
                            omega
                          exact ih rs hrs child _ _ obj log
                  | some g =>
                      simp only [hgt]
                      cases rest with
                      | nil =>
                          cases hgn : g none with
                          | none =>
                              simp only [hgn, Option.isNone]
                              exact ⟨⟨fun _ => by trivial, fun _ => ⟨_, rfl⟩⟩,
                                fun e he => (Except.error.inj he).symm⟩
                          | some o => simp [hgn]
                      | cons r rs =>
                          have hrs : rs.length ≤ f := by
                            simp only [List.length_cons] at hr
                            omega
                          cases hgi : g (some r) with
                          | none =>
                              simp only [hgi]
                              exact ⟨⟨fun _ => by trivial, fun _ => ⟨_, rfl⟩⟩,
                                fun e he => (Except.error.inj he).symm⟩
                          | some o =>
                              simp only [hgi]
                              exact ih rs hrs child _ _ (some o) _
                · simp only [if_neg hci]
                  exact ih rest hr child _ _ obj log

/-- C2: for every registry and target string, path resolution fails iff the
walk hits one of exactly two situations — a nonempty segment naming no
child of the current node, or an indexed node's declared lookup returning
no object for the consumed index segment (a hard failure) — and every
failure is the InvalidTargetPath error referencing the offending target
string. -/
theorem c2_invalid_target_path (Obj : Type) (ctx : String) (root : PathNode Obj)
    (target : String) :
    ((∃ e, _getAnimationObject ctx root target = .error e) ↔
      walkFails root (splitSlash target) = true) ∧
    (∀ e, _getAnimationObject ctx root target = .error e →
      e = invalidTargetPathMsg ctx target) :=
  getAnimationObjectAux_error_charact ctx target (splitSlash target).length
    (splitSlash target) le_rfl root [] 0 none []

theorem c2_invalid_target_path_witness :
    ∃ e, _getAnimationObject "/animations/0/channels/0" unitRegistry
        "materials/0/doesNotExist" = .error e ∧
      e = invalidTargetPathMsg "/animations/0/channels/0" "materials/0/doesNotExist" := by
  obtain ⟨e, he⟩ :=
    (c2_invalid_target_path Unit "/animations/0/channels/0" unitRegistry
      "materials/0/doesNotExist").1.mpr (by decide)
  exact ⟨e, he,
    (c2_invalid_target_path Unit "/animations/0/channels/0" unitRegistry
      "materials/0/doesNotExist").2 e he⟩

/-- C7: resolving `materials/0/pbrMetallicRoughness/baseColorFactor` against
the registry yields a descriptor with value type 4-component color and
dotted target path `albedoColor`, and the materials node's bound lookup is
invoked exactly once, with index `0`. -/
theorem c7_baseColorFactor_resolution (Obj : Type) (ctx : String)
    (lightsGetTarget materialsGetTarget : Option String → Option Obj) (m : Obj)
    (hm : materialsGetTarget (some "0") = some m) :
    _getAnimationObject ctx (pathProperties lightsGetTarget materialsGetTarget)
        "materials/0/pbrMetallicRoughness/baseColorFactor" =
      .ok ({ targetPath := "albedoColor", animationType := ANIMATIONTYPE_COLOR4,
             object := some m }, [some "0"]) := by
  have hsplit : splitSlash "materials/0/pbrMetallicRoughness/baseColorFactor" =
      ["materials", "0", "pbrMetallicRoughness", "baseColorFactor"] := by decide
  unfold _getAnimationObject
  rw [hsplit]
  simp [_getAnimationObjectAux, pathProperties, pbrMetallicRoughnessNode, findChild,
    PathNode.children, PathNode.indexed, PathNode.getTarget, PathNode.targetPath,
    PathNode.animationType, pushFragment, updateAnimationType, hm, joinDot]

theorem c7_baseColorFactor_resolution_witness :
    _getAnimationObject "/animations/0/channels/0" unitRegistry
        "materials/0/pbrMetallicRoughness/baseColorFactor" =
      .ok ({ targetPath := "albedoColor", animationType := ANIMATIONTYPE_COLOR4,
             object := some () }, [some "0"]) :=
  c7_baseColorFactor_resolution Unit "/animations/0/channels/0" unitLightsLookup
    unitMaterialsLookup () rfl

/-- C8 counterexample: `materials//0/pbrMetallicRoughness/baseColorFactor`
differs from `materials/0/pbrMetallicRoughness/baseColorFactor` only by a
doubled slash, yet the two do not resolve to the same descriptor: the empty
segment is consumed verbatim as the index after the indexed `materials`
node, so the doubled-slash path fails. -/
theorem c8_doubled_slash_counterexample :
    _getAnimationObject "ctx" unitRegistry
        "materials/0/pbrMetallicRoughness/baseColorFactor" =
      .ok ({ targetPath := "albedoColor", animationType := ANIMATIONTYPE_COLOR4,
             object := some () }, [some "0"]) ∧
    _getAnimationObject "ctx" unitRegistry
        "materials//0/pbrMetallicRoughness/baseColorFactor" =
      .error (invalidTargetPathMsg "ctx"
        "materials//0/pbrMetallicRoughness/baseColorFactor") ∧
    _getAnimationObject "ctx" unitRegistry
        "materials//0/pbrMetallicRoughness/baseColorFactor" ≠
      _getAnimationObject "ctx" unitRegistry
        "materials/0/pbrMetallicRoughness/baseColorFactor" := by
  have h1 : _getAnimationObject "ctx" unitRegistry
      "materials/0/pbrMetallicRoughness/baseColorFactor" =
      .ok ({ targetPath := "albedoColor", animationType := ANIMATIONTYPE_COLOR4,
             object := some () }, [some "0"]) := rfl
  have h2 : _getAnimationObject "ctx" unitRegistry
      "materials//0/pbrMetallicRoughness/baseColorFactor" =
      .error (invalidTargetPathMsg "ctx"
        "materials//0/pbrMetallicRoughness/baseColorFactor") := rfl
  refine ⟨h1, h2, ?_⟩
  rw [h1, h2]
  simp

theorem noIndexedChildren_findChild {Obj : Type} :
    ∀ (cs : List (String × PathNode Obj)) p child, noIndexedChildren cs = true →
      findChild cs p = some child → noIndexed child = true := by
  intro cs
  induction cs with
  | nil => intro p child _ h; cases h
  | cons q rest ih =>
      intro p child hni hf
      rcases q with ⟨k, n⟩
      rw [noIndexedChildren, Bool.and_eq_true] at hni
      unfold findChild at hf
      by_cases hk : k = p
      · rw [if_pos hk] at hf
        cases hf
        exact hni.1
      · rw [if_neg hk] at hf
        exact ih p child hni.2 hf

theorem noIndexed_spec {Obj : Type} (node : PathNode Obj) (h : noIndexed node = true) :
    node.indexed = false ∧ noIndexedChildren node.children = true := by
  cases node with
  | mk b g t a cs =>
      rw [noIndexed, Bool.and_eq_true, Bool.not_eq_true'] at h
      exact ⟨h.1, h.2⟩

theorem aux_filter_empty_segments {Obj : Type} (ctx target : String) :
    ∀ fuel (parts : List String), parts.length ≤ fuel →
      ∀ (node : PathNode Obj), noIndexed node = true →
        ∀ targetPaths ty obj log,
          _getAnimationObjectAux ctx target node parts targetPaths ty obj log =
            _getAnimationObjectAux ctx target node
              (parts.filter (fun q => !(q == ""))) targetPaths ty obj log := by
  intro fuel
  induction fuel with
  | zero =>
      intro parts hp node hni targetPaths ty obj log
      have hnil : parts = [] := List.length_eq_zero.mp (Nat.le_zero.mp hp)
      subst hnil
      rfl
  | succ f ih =>
      intro parts hp node hni targetPaths ty obj log
      cases parts with
      | nil => rfl
      | cons p rest =>
          have hr : rest.length ≤ f := by
            simp only [List.length_cons] at hp
            omega
          by_cases hps : p = ""
          · subst hps
            have hfil : ("" :: rest).filter (fun q => !(q == "")) =
                rest.filter (fun q => !(q == "")) := by simp
            rw [hfil]
            have hstep : _getAnimationObjectAux ctx target node ("" :: rest) targetPaths
                ty obj log =
                _getAnimationObjectAux ctx target node rest targetPaths ty obj log := by
              rw [_getAnimationObjectAux, if_pos rfl]
            rw [hstep]
            exact ih rest hr node hni targetPaths ty obj log
          · have hfil : (p :: rest).filter (fun q => !(q == "")) =
                p :: rest.filter (fun q => !(q == "")) := by simp [hps]
            rw [hfil]
            simp only [_getAnimationObjectAux]
            simp only [if_neg hps]
            cases hfc : findChild node.children p with
            | none => rfl
            | some child =>
                have hchild : noIndexed child = true :=
                  noIndexedChildren_findChild _ p child (noIndexed_spec node hni).2 hfc
                have hci : ¬(child.indexed = true) := by
                  rw [(noIndexed_spec child hchild).1]
                  simp
                simp only [if_neg hci]
                exact ih rest hr child hchild _ _ obj log

/-- C8 amended: path resolution splits the target on `/`; an empty segment
at a child-matching position is skipped, and over registry regions with no
indexed node resolution is insensitive to all empty segments (leading,
trailing or doubled slashes); but the segment consumed as the index after
an indexed node is taken verbatim from the split, so an empty segment in
index position is consumed as the index rather than skipped. -/
theorem c8_empty_segments (Obj : Type) (ctx target : String) :
    (∀ (node : PathNode Obj) parts targetPaths ty obj log,
      _getAnimationObjectAux ctx target node ("" :: parts) targetPaths ty obj log =
        _getAnimationObjectAux ctx target node parts targetPaths ty obj log) ∧
    (∀ (node : PathNode Obj), noIndexed node = true →
      ∀ parts targetPaths ty obj log,
        _getAnimationObjectAux ctx target node parts targetPaths ty obj log =
          _getAnimationObjectAux ctx target node
            (parts.filter (fun q => !(q == ""))) targetPaths ty obj log) :=
  ⟨fun node parts targetPaths ty obj log => by
      rw [_getAnimationObjectAux, if_pos rfl],
   fun node hni parts => aux_filter_empty_segments ctx target parts.length parts le_rfl
     node hni⟩

theorem c8_empty_segments_witness :
    _getAnimationObjectAux "ctx" "t" (pbrMetallicRoughnessNode : PathNode Unit)
        ["", "baseColorFactor", ""] [] 0 none [] =
      _getAnimationObjectAux "ctx" "t" (pbrMetallicRoughnessNode : PathNode Unit)
        ["baseColorFactor"] [] 0 none [] :=
  (c8_empty_segments Unit "ctx" "t").2 pbrMetallicRoughnessNode rfl
    ["", "baseColorFactor", ""] [] 0 none []

/-! ## Decimal-name toolkit: `Nat.repr` is injective and digits-only -/

/-- Decimal digits of `n`, most significant first (the recursive shape of
`Nat.toDigits 10`). -/
def digitsRec (n : Nat) : List Char :=
  if n < 10 then [Nat.digitChar n]
  else digitsRec (n / 10) ++ [Nat.digitChar (n % 10)]
decreasing_by exact Nat.div_lt_self (by omega) (by omega)

theorem toDigitsCore_append (b : Nat) :
    ∀ fuel n acc, Nat.toDigitsCore b fuel n acc = Nat.toDigitsCore b fuel n [] ++ acc := by
  intro fuel
  induction fuel with
  | zero => intro n acc; rfl
  | succ f ih =>
      intro n acc
      simp only [Nat.toDigitsCore]
      by_cases h : n / b = 0
      · simp [h]
      · rw [if_neg h, if_neg h]
        rw [ih (n / b) [Nat.digitChar (n % b)], ih (n / b) (Nat.digitChar (n % b) :: acc)]
        simp

theorem toDigitsCore_eq_digitsRec :
    ∀ fuel n, n < fuel → Nat.toDigitsCore 10 fuel n [] = digitsRec n := by
  intro fuel
  induction fuel with
  | zero => intro n hn; omega
  | succ f ih =>
      intro n hn
      simp only [Nat.toDigitsCore]
      by_cases h : n / 10 = 0
      · have h10 : n < 10 := by omega
        rw [digitsRec]
        simp [h, h10, Nat.mod_eq_of_lt h10]
      · have h10 : ¬n < 10 := by omega
        have hdiv : n / 10 < f := by omega
        rw [if_neg h]
        rw [toDigitsCore_append, ih (n / 10) hdiv]
        conv_rhs => rw [digitsRec]
        rw [if_neg h10]

theorem toDigits_eq_digitsRec (n : Nat) : Nat.toDigits 10 n = digitsRec n :=
  toDigitsCore_eq_digitsRec (n + 1) n (by omega)

/-- Numeric value of a decimal digit character. -/
def charVal (c : Char) : Nat := c.toNat - 48

/-- Value of a most-significant-first digit list. -/
def valOfDigits (ds : List Char) : Nat :=
  ds.foldl (fun a c => a * 10 + charVal c) 0

theorem charVal_digitChar : ∀ d, d < 10 → charVal (Nat.digitChar d) = d := by decide

theorem digitChar_isDigit : ∀ d, d < 10 → (Nat.digitChar d).isDigit = true := by decide

theorem valOfDigits_digitsRec : ∀ n, valOfDigits (digitsRec n) = n := by
  intro n
  induction n using Nat.strong_induction_on with
  | _ n ih =>
      rw [digitsRec]
      by_cases h : n < 10
      · simp [h, valOfDigits, charVal_digitChar n h]
      · rw [if_neg h]
        have hlt : n / 10 < n := Nat.div_lt_self (by omega) (by omega)
        have hv := ih (n / 10) hlt
        unfold valOfDigits at hv ⊢
        rw [List.foldl_append, hv]
        simp [charVal_digitChar (n % 10) (Nat.mod_lt n (by omega))]
        omega

theorem digitsRec_inj (m n : Nat) (h : digitsRec m = digitsRec n) : m = n := by
  have hm := valOfDigits_digitsRec m
  rw [h, valOfDigits_digitsRec] at hm
  omega

theorem digitsRec_all_digits : ∀ n c, c ∈ digitsRec n → c.isDigit = true := by
  intro n
  induction n using Nat.strong_induction_on with
  | _ n ih =>
      intro c hc
      rw [digitsRec] at hc
      by_cases h : n < 10
      · rw [if_pos h] at hc
        rw [List.mem_singleton] at hc
        subst hc
        exact digitChar_isDigit n h
      · rw [if_neg h] at hc
        rw [List.mem_append, List.mem_singleton] at hc
        rcases hc with hc | hc
        · exact ih (n / 10) (Nat.div_lt_self (by omega) (by omega)) c hc
        · subst hc
          exact digitChar_isDigit (n % 10) (Nat.mod_lt n (by omega))

theorem repr_data (n : Nat) : (Nat.repr n).data = digitsRec n := by
  show (List.asString (Nat.toDigits 10 n)).data = digitsRec n
  rw [toDigits_eq_digitsRec]
  rfl

theorem nat_repr_inj (m n : Nat) (h : Nat.repr m = Nat.repr n) : m = n := by
  have hd := congrArg String.data h
  rw [repr_data, repr_data] at hd
  exact digitsRec_inj m n hd

theorem mkChannelName_inj (s : String) (p q : Nat)
    (h : mkChannelName s p = mkChannelName s q) : p = q := by
  unfold mkChannelName at h
  have hd := congrArg String.data h
  simp only [String.data_append, List.append_assoc] at hd
  replace hd := List.append_cancel_left hd
  replace hd := List.append_cancel_left hd
  replace hd := List.append_cancel_left hd
  replace hd := List.append_cancel_left hd
  exact nat_repr_inj p q (String.ext hd)

theorem mkAlphaChannelName_inj (s : String) (p q : Nat)
    (h : mkAlphaChannelName s p = mkAlphaChannelName s q) : p = q := by
  unfold mkAlphaChannelName mkChannelName at h
  have hd := congrArg String.data h
  simp only [String.data_append, List.append_assoc] at hd
  replace hd := List.append_cancel_left hd
  replace hd := List.append_cancel_left hd
  replace hd := List.append_cancel_left hd
  replace hd := List.append_cancel_left hd
  replace hd := List.append_cancel_right hd
  exact nat_repr_inj p q (String.ext hd)

theorem mkChannelName_ne_mkAlphaChannelName (s : String) (p q : Nat) :
    mkChannelName s p ≠ mkAlphaChannelName s q := by
  intro h
  unfold mkAlphaChannelName mkChannelName at h
  have hd := congrArg String.data h
  simp only [String.data_append, List.append_assoc] at hd
  replace hd := List.append_cancel_left hd
  replace hd := List.append_cancel_left hd
  replace hd := List.append_cancel_left hd
  replace hd := List.append_cancel_left hd
  have hmem : '_' ∈ (Nat.repr p).data := by
    rw [hd]
    exact List.mem_append_right _ (by decide)
  have hdig := digitsRec_all_digits p '_' (by rwa [repr_data] at hmem)
  simp at hdig

theorem getD_append_left {α : Type} (l1 l2 : List α) (p : Nat) (d : α)
    (h : p < l1.length) : (l1 ++ l2).getD p d = l1.getD p d := by
  simp [List.getD_eq_getElem?_getD, List.getElem?_append, h]

theorem getD_append_length {α : Type} (l1 : List α) (a : α) (l2 : List α) (d : α) :
    (l1 ++ a :: l2).getD l1.length d = a := by
  induction l1 with
  | nil => rfl
  | cons x xs ih => simpa using ih

/-- Sequential assembly of several channels into one group (the cooperative
schedule in which each channel's naming and attaching runs synchronously). -/
def assembleMany {Obj : Type} :
    List (IEXTPropertyAnimationSamplerData × IEXTPropertyAnimationTarget Obj) →
    AnimationGroup Obj → Option (AnimationGroup Obj)
  | [], g => some g
  | (d, t) :: rest, g =>
      match assembleChannel d t g with
      | none => none
      | some res => assembleMany rest res.group

/-- Every targeted animation at position `p ≥ init` carries the name its
position dictates: the channel template at counter `p`, or the alpha
template at counter `p`. -/
def namedByPosition {Obj : Type} (g : AnimationGroup Obj) (init : Nat) : Prop :=
  ∀ p (dflt : TargetedAnimation Obj), init ≤ p → p < g.targetedAnimations.length →
    (g.targetedAnimations.getD p dflt).animation.name = mkChannelName g.name p ∨
    (g.targetedAnimations.getD p dflt).animation.name = mkAlphaChannelName g.name p

theorem namedByPosition_append {Obj : Type} (g : AnimationGroup Obj)
    (ta : TargetedAnimation Obj) (init : Nat)
    (hinv : namedByPosition g init)
    (hname : ta.animation.name = mkChannelName g.name g.targetedAnimations.length ∨
      ta.animation.name = mkAlphaChannelName g.name g.targetedAnimations.length) :
    namedByPosition
      { g with targetedAnimations := g.targetedAnimations ++ [ta] } init := by
  intro p dflt hip hplen
  simp only [List.length_append, List.length_cons, List.length_nil] at hplen
  by_cases hp : p < g.targetedAnimations.length
  · simp only
    rw [getD_append_left _ _ p dflt hp]
    exact hinv p dflt hip hp
  · have hpL : p = g.targetedAnimations.length := by omega
    subst hpL
    simp only
    rw [show g.targetedAnimations ++ [ta] = g.targetedAnimations ++ ta :: [] from rfl,
      getD_append_length]
    exact hname

theorem namedByPosition_add {Obj : Type} (g : AnimationGroup Obj) (a : BabylonAnimation)
    (t : Obj) (init : Nat) (hinv : namedByPosition g init)
    (hname : a.name = mkChannelName g.name g.targetedAnimations.length ∨
      a.name = mkAlphaChannelName g.name g.targetedAnimations.length) :
    namedByPosition (g.addTargetedAnimation a t) init :=
  namedByPosition_append g _ init hinv hname

theorem addTargetedAnimation_length {Obj : Type} (g : AnimationGroup Obj)
    (a : BabylonAnimation) (t : Obj) :
    (g.addTargetedAnimation a t).targetedAnimations.length =
      g.targetedAnimations.length + 1 := by
  simp [AnimationGroup.addTargetedAnimation]

theorem assembleChannel_naming_step {Obj : Type}
    (data : IEXTPropertyAnimationSamplerData) (target : IEXTPropertyAnimationTarget Obj)
    (group : AnimationGroup Obj) (res : AssembleResult Obj) (init : Nat)
    (h : assembleChannel data target group = some res)
    (hinv : namedByPosition group init) :
    res.group.name = group.name ∧
    group.targetedAnimations.length ≤ res.group.targetedAnimations.length ∧
    namedByPosition res.group init := by
  unfold assembleChannel at h
  cases hty : ValueType.ofAnimationType target.animationType with
  | none => rw [hty] at h; exact absurd h (by simp)
  | some vt =>
      rw [hty] at h
      simp only at h
      split at h
      · cases h
        cases hobj : target.object with
        | none =>
            simp only [hobj]
            exact ⟨by trivial, Nat.le_refl _, hinv⟩
        | some obj =>
            simp only [hobj]
            refine ⟨by trivial, ?_, ?_⟩
            · rw [addTargetedAnimation_length, addTargetedAnimation_length]
              omega
            · exact namedByPosition_add _ _ _ init
                (namedByPosition_add group _ obj init hinv (Or.inl rfl)) (Or.inr rfl)
      · cases h
        cases hobj : target.object with
        | none =>
            simp only [hobj]
            exact ⟨by trivial, Nat.le_refl _, hinv⟩
        | some obj =>
            simp only [hobj]
            refine ⟨by trivial, ?_, ?_⟩
            · rw [addTargetedAnimation_length]
              omega
            · exact namedByPosition_add group _ obj init hinv (Or.inl rfl)

theorem assembleMany_naming {Obj : Type} :
    ∀ (channels : List (IEXTPropertyAnimationSamplerData ×
        IEXTPropertyAnimationTarget Obj))
      (group group' : AnimationGroup Obj) (init : Nat),
      assembleMany channels group = some group' →
      namedByPosition group init →
      group'.name = group.name ∧
      group.targetedAnimations.length ≤ group'.targetedAnimations.length ∧
      namedByPosition group' init := by
  intro channels
  induction channels with
  | nil =>
      intro group group' init h hinv
      cases h
      exact ⟨rfl, Nat.le_refl _, hinv⟩
  | cons c rest ih =>
      intro group group' init h hinv
      rcases c with ⟨d, t⟩
      unfold assembleMany at h
      cases hac : assembleChannel d t group with
      | none => rw [hac] at h; cases h
      | some res =>
          rw [hac] at h
          obtain ⟨hname, hlen, hinv2⟩ :=
            assembleChannel_naming_step d t group res init hac hinv
          obtain ⟨hname2, hlen2, hinv3⟩ := ih res.group group' init h hinv2
          exact ⟨hname2.trans hname, Nat.le_trans hlen hlen2, hinv3⟩

/-- C6 counterexample: for a 4-color channel whose target object is present,
the alpha track's generated name is not the primary track's name suffixed
with the alpha marker: the primary track's attachment advances the group's
targeted-animation counter before the alpha name is generated. -/
theorem c6_alpha_name_counterexample :
    assembleChannel color4Data color4Target emptyGroup = some color4AssembleRes ∧
    color4AssembleRes.primary.name = "g_EXT_property_animation_channel0" ∧
    ∃ a, color4AssembleRes.alpha = some a ∧
      a.name = "g_EXT_property_animation_channel1_alpha" ∧
      a.name ≠ color4AssembleRes.primary.name ++ "_alpha" := by
  refine ⟨rfl, rfl, ⟨_, rfl, rfl, ?_⟩⟩
  decide

/-- C6 amended: every track a channel builds is named from the owning
group's name, the fixed extension tag, and the group's targeted-animation
count at naming time, and tracks the extension attaches to the group have
pairwise distinct names; for a 4-component-color channel the alpha track's
counter is read after the primary track's attachment, so with a resolved
object present it is one higher than the primary's, and only when the
target object is absent is the alpha name exactly the primary track's name
suffixed with the alpha marker. -/
theorem c6_naming_scheme (Obj : Type) :
    (∀ (data : IEXTPropertyAnimationSamplerData)
       (target : IEXTPropertyAnimationTarget Obj) (group : AnimationGroup Obj)
       (res : AssembleResult Obj), assembleChannel data target group = some res →
      res.primary.name = mkChannelName group.name group.targetedAnimations.length ∧
      (∀ a, res.alpha = some a → a.name = mkAlphaChannelName group.name
        (group.targetedAnimations.length +
          (if target.object.isSome then 1 else 0))) ∧
      (target.object = none → ∀ a, res.alpha = some a →
        a.name = res.primary.name ++ "_alpha")) ∧
    (∀ (channels : List (IEXTPropertyAnimationSamplerData ×
        IEXTPropertyAnimationTarget Obj))
       (group group' : AnimationGroup Obj),
      assembleMany channels group = some group' →
      ∀ p q (dflt : TargetedAnimation Obj),
        group.targetedAnimations.length ≤ p → p < q →
        q < group'.targetedAnimations.length →
        (group'.targetedAnimations.getD p dflt).animation.name ≠
          (group'.targetedAnimations.getD q dflt).animation.name) := by
  constructor
  · intro data target group res h
    unfold assembleChannel at h
    cases hty : ValueType.ofAnimationType target.animationType with
    | none => rw [hty] at h; exact absurd h (by simp)
    | some vt =>
        rw [hty] at h
        simp only at h
        split at h
        · cases h
          refine ⟨rfl, fun a ha => ?_, fun hobj a ha => ?_⟩
          · cases ha
            cases hobj : target.object with
            | none => simp [hobj]
            | some obj =>
                simp [hobj, addTargetedAnimation_length, AnimationGroup.addTargetedAnimation]
          · cases ha
            simp only [hobj]
            rfl
        · cases h
          refine ⟨rfl, ?_, ?_⟩
          · intro a ha
            exact Option.noConfusion ha
          · intro _ a ha
            exact Option.noConfusion ha
  · intro channels group group' h p q dflt hip hpq hq
    have base : namedByPosition group group.targetedAnimations.length := by
      intro r _ hr1 hr2
      omega
    obtain ⟨hname, hlen, hinv⟩ :=
      assembleMany_naming channels group group' group.targetedAnimations.length h base
    have hp' : p < group'.targetedAnimations.length := by omega
    intro hEq
    rcases hinv p dflt hip hp' with h1 | h1
    · rcases hinv q dflt (by omega) hq with h2 | h2
      · rw [h1, h2] at hEq
        exact absurd (mkChannelName_inj _ p q hEq) (by omega)
      · rw [h1, h2] at hEq
        exact mkChannelName_ne_mkAlphaChannelName _ p q hEq
    · rcases hinv q dflt (by omega) hq with h2 | h2
      · rw [h1, h2] at hEq
        exact mkChannelName_ne_mkAlphaChannelName _ q p hEq.symm
      · rw [h1, h2] at hEq
        exact absurd (mkAlphaChannelName_inj _ p q hEq) (by omega)

/-- A default targeted animation for `List.getD` in the C6 witness. -/
def dfltTargetedAnimation : TargetedAnimation Unit :=
  { animation := { name := "", targetProperty := "", animationType := 0, keys := [] },
    target := () }

theorem c6_naming_scheme_witness :
    color4AssembleRes.primary.name =
      mkChannelName emptyGroup.name emptyGroup.targetedAnimations.length ∧
    (color4AssembleRes.group.targetedAnimations.getD 0
        dfltTargetedAnimation).animation.name ≠
      (color4AssembleRes.group.targetedAnimations.getD 1
        dfltTargetedAnimation).animation.name := by
  constructor
  · exact ((c6_naming_scheme Unit).1 color4Data color4Target emptyGroup
      color4AssembleRes rfl).1
  · exact (c6_naming_scheme Unit).2 [(color4Data, color4Target)] emptyGroup
      color4AssembleRes.group rfl 0 1 dfltTargetedAnimation (by decide) (by decide)
      (by decide)
